import Mathlib

/-!
Verification of the go-health health-check engine (pcordeiro/go-health)
against its design specification.

The development shallowly embeds the two source files `health.go` and
`options.go`. Pure data and control flow are translated directly; the
effectful parts are made explicit as follows.

* `time.Duration` is an `Int` counting nanoseconds (Go's `int64` duration;
  no value in this development approaches the 64-bit range, so wrap-around
  is irrelevant).
* The Go `map[string]Check` registry is an association list in insertion
  order; `mapLookup` mirrors Go map indexing.
* A probe's `Check CheckFunc` field is an external, user-supplied operation.
  Its behaviour during one check-run is modelled by a `ProbeOutcome` input:
  the probe either completed without error, completed with an error message,
  or its timeout timer fired first (the three arms of the `select` in
  `(*Health).Check`, health.go lines 146-160).
* A check-run's aggregation is a fold over the per-probe outcomes in
  completion order; completion order is nondeterministic in Go, so theorems
  quantify over the order (or over permutations) where it matters.
* `runtime.NumCPU()` and `newSystemMetrics()` read the host environment;
  they enter the model as parameters (`numCPU`, `sys`), as does the wall
  clock (`now`).
* Methods that mutate the receiver (`Register`) return the new state
  explicitly, paired with the Go error value (`Option String`, `none` for
  the nil error).
-/

/-- Overall availability, Go type `Status` (a string in the source, with the
four constants of health.go lines 69-74). -/
inductive Status where
  | ok
  | partiallyAvailable
  | unavailable
  | timeout
  deriving DecidableEq, Repr

/-- Component metadata, health.go `Component`. -/
structure Component where
  name : String
  version : String
  deriving DecidableEq, Repr

/-- Go zero value of `Component` (both fields empty strings), the value a
fresh `Health` holds before `WithComponent` runs. -/
def componentZero : Component := { name := "", version := "" }

/-- Runtime metrics of the go process, health.go `System`. Its values come
from the `runtime` package, an external collaborator; the model treats a
`System` value as opaque environment input. -/
structure System where
  version : String
  goroutinesCount : Int
  totalAllocBytes : Int
  heapObjectsCount : Int
  allocBytes : Int
  deriving DecidableEq, Repr

/-- Go `time.Second`: one second counted in nanoseconds. -/
def timeSecond : Int := 1000000000

/-- A registered probe, health.go `Check` (the struct). The `Check CheckFunc`
field is the external probe operation and is not part of the registry data;
its per-run behaviour is modelled by `ProbeOutcome`. -/
structure Check where
  name : String
  timeout : Int
  skipOnErr : Bool
  deriving DecidableEq, Repr

/-- The engine state, health.go `Health`. The `sync.Mutex` field has no data
content; the lock discipline is modelled separately by `checkTrace` and
`registerTrace`. -/
structure Health where
  checks : List (String × Check)
  maxConcurrent : Int
  systemInfo : Bool
  component : Component
  deriving DecidableEq, Repr

/-- The report of one run, health.go `Result`. `failures` keeps the Go
`map[string]string` as an association list (keys are probe names, unique). -/
structure Result where
  status : Status
  timestamp : Int
  failures : List (String × String)
  system : Option System
  component : Component
  deriving DecidableEq, Repr

/-- Go map indexing `m[k]` for the association lists standing in for
`map[string]Check` and `map[string]string`. -/
def mapLookup {α : Type} : List (String × α) → String → Option α
  | [], _ => none
  | (k, v) :: rest, n => if k = n then some v else mapLookup rest n

/-- Message of `errors.New` at health.go line 100. -/
def emptyNameMsg : String := "health check must have a name to be registered"

/-- Go `%q` applied to a probe name: the name wrapped in double quotes
(the names in this development need no escaping). -/
def goQuote (s : String) : String := "\"" ++ s ++ "\""

/-- Message of `fmt.Errorf` at health.go line 107. -/
def dupMsg (n : String) : String :=
  "health check " ++ goQuote n ++ " is already registered"

/-- The timeout-defaulting statement at health.go lines 95-97: the literal
test is equality with zero. -/
def defaultTimeout (c : Check) : Check :=
  if c.timeout = 0 then { c with timeout := 2 * timeSecond } else c

/-- `(*Health).Register`, health.go lines 94-113. Returns the engine state
after the call together with the Go error: the receiver is mutated only on
the success path, after both validations. -/
def Register (h : Health) (c : Check) : Health × Option String :=
  let c' := defaultTimeout c
  if c'.name = "" then (h, some emptyNameMsg)
  else if (mapLookup h.checks c'.name).isSome then (h, some (dupMsg c'.name))
  else ({ h with checks := h.checks ++ [(c'.name, c')] }, none)

/-- The behaviour of one probe's operation during one run: the three arms of
the `select` at health.go lines 146-160. `timeout` is the timer firing
before the operation returns; `failure msg` is the operation returning a
non-nil error with message `msg`; `success` is a nil error. -/
inductive ProbeOutcome where
  | success
  | failure (msg : String)
  | timeout
  deriving DecidableEq, Repr

/-- The status transition, health.go lines 195-201 `getAvailability`. -/
def getAvailability (s : Status) (skipOnErr : Bool) : Status :=
  if skipOnErr = true ∧ s ≠ Status.unavailable then Status.partiallyAvailable
  else Status.unavailable

/-- What one completed probe does to the accumulated (status, failures)
pair: nothing on success; on error or timeout it appends the failure entry
and applies `getAvailability` (health.go lines 146-160). -/
def processOutcome (acc : Status × List (String × String))
    (p : Check × ProbeOutcome) : Status × List (String × String) :=
  match p.2 with
  | ProbeOutcome.success => acc
  | ProbeOutcome.failure msg =>
      (getAvailability acc.1 p.1.skipOnErr, acc.2 ++ [(p.1.name, msg)])
  | ProbeOutcome.timeout =>
      (getAvailability acc.1 p.1.skipOnErr, acc.2 ++ [(p.1.name, "Timeout")])

/-- The aggregation of one check-run: folding the per-probe outcomes, in
completion order, from the initial state `(StatusOK, empty failures)` of
health.go lines 119-120. -/
def runOutcomes (outcomes : List (Check × ProbeOutcome)) :
    Status × List (String × String) :=
  outcomes.foldl processOutcome (Status.ok, [])

/-- `(*Health).Check`, health.go lines 115-180, as a function of the
completed outcomes (probe, outcome) in completion order, the environment
metrics snapshot `sys` (what `newSystemMetrics` returned) and the wall
clock `now` (what `time.Now` returned). -/
def checkRun (h : Health) (outcomes : List (Check × ProbeOutcome))
    (sys : System) (now : Int) : Result :=
  let r := runOutcomes outcomes
  { status := r.1
    timestamp := now
    failures := r.2
    system := if h.systemInfo then some sys else none
    component := h.component }

/-- The functional options of options.go (Go type `Option`; renamed to avoid
the Lean `Option`). Each constructor carries the closed-over arguments of
the corresponding constructor function. -/
inductive HealthOption where
  | withChecks (cs : List Check)
  | withComponent (c : Component)
  | withMaxConcurrent (n : Int)
  | withSystemInfo
  deriving DecidableEq, Repr

/-- Error-message wrapping of `WithChecks`, options.go line 13:
`fmt.Errorf("could not register check %q: %w", c.Name, err)`. -/
def wrapRegMsg (n : String) (e : String) : String :=
  "could not register check " ++ goQuote n ++ ": " ++ e

/-- The loop body of `WithChecks` (options.go lines 9-18): register each
check in order, stopping at the first registration error with the wrapped
message. -/
def registerAll (h : Health) : List Check → Health × Option String
  | [] => (h, none)
  | c :: rest =>
      match Register h c with
      | (h', none) => registerAll h' rest
      | (h', some e) => (h', some (wrapRegMsg c.name e))

/-- Applying one option to the engine under construction (the closures of
options.go). -/
def applyOption (h : Health) : HealthOption → Health × Option String
  | HealthOption.withChecks cs => registerAll h cs
  | HealthOption.withComponent c => ({ h with component := c }, none)
  | HealthOption.withMaxConcurrent n => ({ h with maxConcurrent := n }, none)
  | HealthOption.withSystemInfo => ({ h with systemInfo := true }, none)

/-- The option loop of `NewHealth` (health.go lines 83-88): options applied
in order, the first non-nil error returned with a nil engine. -/
def applyOptions (h : Health) : List HealthOption → Except String Health
  | [] => Except.ok h
  | o :: rest =>
      match applyOption h o with
      | (h', none) => applyOptions h' rest
      | (_, some e) => Except.error e

/-- The engine literal of health.go lines 77-81: empty registry,
`maxConcurrent` set to `runtime.NumCPU()` (the parameter `numCPU`),
`systemInfo` true, zero-valued component. -/
def initialHealth (numCPU : Int) : Health :=
  { checks := []
    maxConcurrent := numCPU
    systemInfo := true
    component := componentZero }

/-- `NewHealth`, health.go lines 76-91, parameterised by the host's
`runtime.NumCPU()` value. -/
def NewHealth (numCPU : Int) (opts : List HealthOption) : Except String Health :=
  applyOptions (initialHealth numCPU) opts

/-- Actions touching the registry mutex `Health.mu`, for the lock-discipline
model of `Register` and `Check`. -/
inductive MuAction where
  | lock
  | readChecks
  | writeChecks
  | runProbes
  | buildReport
  | unlock
  deriving DecidableEq, Repr

/-- The sequence of `Health.mu`-relevant actions of `(*Health).Check`,
read off health.go lines 115-180: `h.mu.Lock()` on entry (line 116) with
`defer h.mu.Unlock()` (line 117), so the iteration over `h.checks`
(lines 127-161), the wait for all probe goroutines (`wg.Wait()`, line 163)
and the construction of the report (lines 165-180) all execute with the
mutex held; the deferred unlock runs only at return. -/
def checkTrace : List MuAction :=
  [MuAction.lock, MuAction.readChecks, MuAction.runProbes,
   MuAction.buildReport, MuAction.unlock]

/-- The sequence of `Health.mu`-relevant actions of the registration path of
`(*Health).Register` that reaches the lock, health.go lines 102-112:
`h.mu.Lock()` with deferred unlock around the duplicate lookup and the map
insert. -/
def registerTrace : List MuAction :=
  [MuAction.lock, MuAction.readChecks, MuAction.writeChecks, MuAction.unlock]

/-- The actions performed while the mutex is held: the segment of a trace
strictly between its `lock` and the following `unlock`. -/
def heldActions (t : List MuAction) : List MuAction :=
  ((t.dropWhile (fun a => a ≠ MuAction.lock)).drop 1).takeWhile
    (fun a => a ≠ MuAction.unlock)

/-- The skip flag of a failing outcome, `none` for a success: the argument
stream that `getAvailability` sees during a run. -/
def failFlag : Check × ProbeOutcome → Option Bool
  | (_, ProbeOutcome.success) => none
  | (c, ProbeOutcome.failure _) => some c.skipOnErr
  | (c, ProbeOutcome.timeout) => some c.skipOnErr

/-- The failures-map entry of one outcome, `none` for a success
(health.go lines 150, 156). -/
def failEntry : Check × ProbeOutcome → Option (String × String)
  | (_, ProbeOutcome.success) => none
  | (c, ProbeOutcome.failure msg) => some (c.name, msg)
  | (c, ProbeOutcome.timeout) => some (c.name, "Timeout")

/-- Folding `getAvailability` from a starting status over the skip flags of
the failing outcomes. -/
def foldStatus (s : Status) (l : List Bool) : Status :=
  l.foldl getAvailability s

/-- Whether every `withMaxConcurrent` option in a list carries a positive
argument. -/
def allMaxConcurrentPos : List HealthOption → Bool
  | [] => true
  | HealthOption.withMaxConcurrent n :: rest =>
      decide (0 < n) && allMaxConcurrentPos rest
  | _ :: rest => allMaxConcurrentPos rest

/-- A concrete metrics snapshot, used in witnesses. -/
def sys0 : System :=
  { version := "go1.22"
    goroutinesCount := 1
    totalAllocBytes := 0
    heapObjectsCount := 0
    allocBytes := 0 }

theorem foldStatus_cons (s : Status) (b : Bool) (t : List Bool) :
    foldStatus s (b :: t) = foldStatus (getAvailability s b) t := rfl

/-- Closed form of the status fold: any non-skippable failure forces
`Unavailable`; otherwise a nonempty failure list gives
`PartiallyAvailable` unless the start was already `Unavailable`. -/
theorem foldStatus_char (l : List Bool) : ∀ s : Status,
    foldStatus s l =
      if false ∈ l then Status.unavailable
      else if l = [] then s
      else if s = Status.unavailable then Status.unavailable
      else Status.partiallyAvailable := by
  induction l with
  | nil => intro s; simp [foldStatus]
  | cons b t ih =>
    intro s
    rw [foldStatus_cons, ih]
    rcases Bool.eq_false_or_eq_true b with hb | hb <;> subst hb <;>
      cases s <;>
      by_cases hf : false ∈ t <;>
      by_cases ht : t = [] <;>
      simp [getAvailability, hf, ht]

theorem foldl_processOutcome_status (l : List (Check × ProbeOutcome)) :
    ∀ (s : Status) (fs : List (String × String)),
      (l.foldl processOutcome (s, fs)).1 = foldStatus s (l.filterMap failFlag) := by
  induction l with
  | nil => intro s fs; rfl
  | cons p t ih =>
    intro s fs
    obtain ⟨c, o⟩ := p
    cases o <;>
      simp [processOutcome, failFlag, foldStatus_cons, ih]

theorem foldl_processOutcome_failures (l : List (Check × ProbeOutcome)) :
    ∀ (s : Status) (fs : List (String × String)),
      (l.foldl processOutcome (s, fs)).2 = fs ++ l.filterMap failEntry := by
  induction l with
  | nil => intro s fs; simp
  | cons p t ih =>
    intro s fs
    obtain ⟨c, o⟩ := p
    cases o <;>
      simp [processOutcome, failEntry, ih]

theorem runOutcomes_status (l : List (Check × ProbeOutcome)) :
    (runOutcomes l).1 = foldStatus Status.ok (l.filterMap failFlag) :=
  foldl_processOutcome_status l Status.ok []

theorem runOutcomes_failures (l : List (Check × ProbeOutcome)) :
    (runOutcomes l).2 = l.filterMap failEntry := by
  have := foldl_processOutcome_failures l Status.ok []
  simpa [runOutcomes] using this

/-- C1: in every check-run with at least one failing probe (error or
timeout) whose skipOnErr is false, the report status is Unavailable,
whatever the other outcomes and whatever the completion order; moreover
Unavailable is absorbing under the transition function, so no later
outcome of the run can change it. -/
theorem unavailable_dominates_and_absorbs (h : Health)
    (outcomes : List (Check × ProbeOutcome)) (sys : System) (now : Int)
    (hfail : ∃ p ∈ outcomes, p.2 ≠ ProbeOutcome.success ∧ p.1.skipOnErr = false) :
    (checkRun h outcomes sys now).status = Status.unavailable ∧
    ∀ b : Bool, getAvailability Status.unavailable b = Status.unavailable := by
  constructor
  · have hst : (checkRun h outcomes sys now).status = (runOutcomes outcomes).1 := rfl
    rw [hst, runOutcomes_status, foldStatus_char]
    have hmem : false ∈ outcomes.filterMap failFlag := by
      obtain ⟨p, hp, hne, hskip⟩ := hfail
      refine List.mem_filterMap.mpr ⟨p, hp, ?_⟩
      obtain ⟨c, o⟩ := p
      cases o with
      | success => exact absurd rfl hne
      | failure m => simpa [failFlag] using hskip
      | timeout => simpa [failFlag] using hskip
    simp [hmem]
  · intro b; cases b <;> rfl

theorem unavailable_dominates_and_absorbs_witness :
    (checkRun (initialHealth 1)
        [({ name := "B", timeout := 2 * timeSecond, skipOnErr := false },
          ProbeOutcome.failure "boom")] sys0 0).status = Status.unavailable ∧
    getAvailability Status.unavailable true = Status.unavailable ∧
    getAvailability Status.unavailable false = Status.unavailable :=
  have h := unavailable_dominates_and_absorbs (initialHealth 1)
    [({ name := "B", timeout := 2 * timeSecond, skipOnErr := false },
      ProbeOutcome.failure "boom")] sys0 0
    ⟨({ name := "B", timeout := 2 * timeSecond, skipOnErr := false },
      ProbeOutcome.failure "boom"),
     List.mem_singleton.mpr rfl, by simp, rfl⟩
  ⟨h.1, h.2 true, h.2 false⟩

/-- C2: the status fold is order-independent: permuting the completed
outcomes of a run never changes the folded status, and the per-outcome
transition function commutes with itself. -/
theorem statusFold_order_independent (l1 l2 : List (Check × ProbeOutcome))
    (hp : l1.Perm l2) :
    (runOutcomes l1).1 = (runOutcomes l2).1 ∧
    ∀ (s : Status) (a b : Bool),
      getAvailability (getAvailability s a) b =
        getAvailability (getAvailability s b) a := by
  constructor
  · rw [runOutcomes_status, runOutcomes_status]
    have hp' : (l1.filterMap failFlag).Perm (l2.filterMap failFlag) :=
      hp.filterMap _
    have hm : (false ∈ l1.filterMap failFlag) ↔ (false ∈ l2.filterMap failFlag) :=
      hp'.mem_iff
    have hn : (l1.filterMap failFlag = []) ↔ (l2.filterMap failFlag = []) :=
      ⟨fun h => ((h ▸ hp').symm).eq_nil, fun h => (h ▸ hp').eq_nil⟩
    rw [foldStatus_char, foldStatus_char]
    by_cases h1 : false ∈ l1.filterMap failFlag
    · simp [h1, hm.mp h1]
    · have h1' : false ∉ l2.filterMap failFlag := fun hh => h1 (hm.mpr hh)
      by_cases h2 : l1.filterMap failFlag = []
      · simp [h1, h1', h2, hn.mp h2]
      · have h2' : l2.filterMap failFlag ≠ [] := fun hh => h2 (hn.mpr hh)
        simp [h1, h1', h2, h2']
  · intro s a b
    cases s <;> cases a <;> cases b <;> rfl

/-- A skippable probe that times out, used in witnesses. -/
def probeSkipTimeout : Check × ProbeOutcome :=
  ({ name := "A", timeout := timeSecond, skipOnErr := true },
   ProbeOutcome.timeout)

/-- A fatal probe that fails, used in witnesses. -/
def probeFatalFailure : Check × ProbeOutcome :=
  ({ name := "B", timeout := timeSecond, skipOnErr := false },
   ProbeOutcome.failure "x")

theorem statusFold_order_independent_witness :
    (runOutcomes [probeSkipTimeout, probeFatalFailure]).1 =
      (runOutcomes [probeFatalFailure, probeSkipTimeout]).1 ∧
    getAvailability (getAvailability Status.ok true) false =
      getAvailability (getAvailability Status.ok false) true :=
  have h := statusFold_order_independent
    [probeSkipTimeout, probeFatalFailure]
    [probeFatalFailure, probeSkipTimeout]
    (List.Perm.swap probeFatalFailure probeSkipTimeout [])
  ⟨h.1, h.2 Status.ok true false⟩

/-- C7: whenever no probe produces an error or a timeout (in particular
with no registered probes at all), the report status is OK and the
failures map is empty. -/
theorem all_success_gives_ok (h : Health) (outcomes : List (Check × ProbeOutcome))
    (sys : System) (now : Int)
    (hall : ∀ p ∈ outcomes, p.2 = ProbeOutcome.success) :
    (checkRun h outcomes sys now).status = Status.ok ∧
    (checkRun h outcomes sys now).failures = [] := by
  have hflag : outcomes.filterMap failFlag = [] := by
    refine List.filterMap_eq_nil_iff.mpr fun p hp => ?_
    obtain ⟨c, o⟩ := p
    have := hall (c, o) hp
    simp only at this
    rw [this]
    rfl
  have hentry : outcomes.filterMap failEntry = [] := by
    refine List.filterMap_eq_nil_iff.mpr fun p hp => ?_
    obtain ⟨c, o⟩ := p
    have := hall (c, o) hp
    simp only at this
    rw [this]
    rfl
  constructor
  · have hst : (checkRun h outcomes sys now).status = (runOutcomes outcomes).1 := rfl
    rw [hst, runOutcomes_status, hflag]
    rfl
  · have hfs : (checkRun h outcomes sys now).failures = (runOutcomes outcomes).2 := rfl
    rw [hfs, runOutcomes_failures, hentry]

theorem all_success_gives_ok_witness :
    (checkRun (initialHealth 1) [] sys0 0).status = Status.ok ∧
    (checkRun (initialHealth 1) [] sys0 0).failures = [] :=
  all_success_gives_ok (initialHealth 1) [] sys0 0 (fun p hp => absurd hp (by simp))

theorem defaultTimeout_name (c : Check) : (defaultTimeout c).name = c.name := by
  unfold defaultTimeout
  split <;> rfl

theorem defaultTimeout_eq (c : Check) :
    defaultTimeout c =
      { c with timeout := if c.timeout = 0 then 2 * timeSecond else c.timeout } := by
  unfold defaultTimeout
  split <;> rename_i hc <;> simp [hc]

theorem mapLookup_append_self {α : Type} (l : List (String × α)) (k : String) (v : α)
    (hnone : mapLookup l k = none) : mapLookup (l ++ [(k, v)]) k = some v := by
  induction l with
  | nil => simp [mapLookup]
  | cons p rest ih =>
    obtain ⟨k', v'⟩ := p
    by_cases hk : k' = k
    · simp [mapLookup, hk] at hnone
    · simp only [List.cons_append, mapLookup, hk, if_neg hk]
      exact ih (by simpa [mapLookup, hk] using hnone)

/-- C5: registration rejects an empty name and a duplicate name with the
respective error messages, leaving the registry untouched; after a rejected
duplicate the originally stored probe is still there unmodified. -/
theorem register_rejects_empty_and_duplicate (h : Health) (c : Check) :
    (c.name = "" → Register h c = (h, some emptyNameMsg)) ∧
    (∀ c0 : Check, c.name ≠ "" → mapLookup h.checks c.name = some c0 →
      Register h c = (h, some (dupMsg c.name)) ∧
      mapLookup (Register h c).1.checks c.name = some c0) := by
  constructor
  · intro hname
    unfold Register
    simp [defaultTimeout_name, hname]
  · intro c0 hne hdup
    have hreg : Register h c = (h, some (dupMsg c.name)) := by
      unfold Register
      simp [defaultTimeout_name, hne, hdup]
    exact ⟨hreg, by rw [hreg]; exact hdup⟩

/-- An empty-named probe, used in witnesses. -/
def checkUnnamed : Check :=
  { name := "", timeout := timeSecond, skipOnErr := false }

/-- A probe named B, used in witnesses. -/
def checkB : Check :=
  { name := "B", timeout := timeSecond, skipOnErr := false }

/-- A second, different probe also named B, used in witnesses. -/
def checkBdup : Check :=
  { name := "B", timeout := 5, skipOnErr := true }

/-- An engine that already holds checkB, used in witnesses. -/
def healthB : Health :=
  { checks := [("B", checkB)]
    maxConcurrent := 2
    systemInfo := true
    component := componentZero }

theorem register_rejects_empty_and_duplicate_witness :
    Register (initialHealth 4) checkUnnamed = (initialHealth 4, some emptyNameMsg) ∧
    Register healthB checkBdup = (healthB, some (dupMsg "B")) ∧
    mapLookup (Register healthB checkBdup).1.checks "B" = some checkB :=
  have h2 := (register_rejects_empty_and_duplicate healthB checkBdup).2 checkB
    (by decide) (by decide)
  ⟨(register_rejects_empty_and_duplicate (initialHealth 4) checkUnnamed).1 rfl,
   h2.1, h2.2⟩

/-- A probe with a negative (explicitly set, nonzero) timeout. -/
def checkNeg : Check := { name := "neg", timeout := -1, skipOnErr := false }

/-- C3 counterexample: a probe with timeout -1 (which is ≤ 0, hence "unset"
by the claim's reading) registers successfully and is stored with timeout
-1, not 2 seconds: the source tests `c.Timeout == 0`, not `<= 0`. -/
theorem register_keeps_negative_timeout :
    checkNeg.timeout ≤ 0 ∧
    (Register (initialHealth 4) checkNeg).2 = none ∧
    mapLookup (Register (initialHealth 4) checkNeg).1.checks "neg" = some checkNeg ∧
    checkNeg.timeout ≠ 2 * timeSecond := by
  decide

/-- C3 amended: Register defaults the timeout to 2 seconds exactly when the
supplied timeout equals 0; any nonzero timeout, positive or negative, is
stored unchanged. -/
theorem register_timeout_defaulting (h : Health) (c : Check) (h' : Health)
    (hok : Register h c = (h', none)) :
    mapLookup h'.checks c.name =
      some { c with timeout := if c.timeout = 0 then 2 * timeSecond else c.timeout } := by
  rw [← defaultTimeout_eq]
  unfold Register at hok
  simp only [] at hok
  split at hok
  · exact absurd (congrArg Prod.snd hok) (by simp)
  · split at hok
    · exact absurd (congrArg Prod.snd hok) (by simp)
    · rename_i hname hdup
      have hh : h' =
          { h with checks := h.checks ++ [((defaultTimeout c).name, defaultTimeout c)] } :=
        (congrArg Prod.fst hok).symm
      have hnone : mapLookup h.checks (defaultTimeout c).name = none := by
        cases hmk : mapLookup h.checks (defaultTimeout c).name with
        | none => rfl
        | some v => exact absurd (by rw [hmk]; rfl) hdup
      rw [hh]
      simp only [defaultTimeout_name] at hnone ⊢
      exact mapLookup_append_self h.checks c.name (defaultTimeout c) hnone

/-- A probe with timeout left at the zero value, used in witnesses. -/
def checkZeroT : Check := { name := "t", timeout := 0, skipOnErr := true }

/-- The engine state after registering checkZeroT into a fresh engine, used
in witnesses. -/
def healthZeroT : Health :=
  { checks := [("t", { name := "t", timeout := 2 * timeSecond, skipOnErr := true })]
    maxConcurrent := 4
    systemInfo := true
    component := componentZero }

theorem register_timeout_defaulting_witness :
    mapLookup healthZeroT.checks checkZeroT.name =
      some { checkZeroT with
              timeout := if checkZeroT.timeout = 0 then 2 * timeSecond
                         else checkZeroT.timeout } :=
  register_timeout_defaulting (initialHealth 4) checkZeroT healthZeroT (by decide)

theorem Register_preserves_config (h : Health) (c : Check) :
    (Register h c).1.maxConcurrent = h.maxConcurrent ∧
    (Register h c).1.systemInfo = h.systemInfo ∧
    (Register h c).1.component = h.component := by
  unfold Register
  simp only []
  split
  · exact ⟨rfl, rfl, rfl⟩
  · split
    · exact ⟨rfl, rfl, rfl⟩
    · exact ⟨rfl, rfl, rfl⟩

theorem registerAll_preserves_config (cs : List Check) : ∀ h : Health,
    (registerAll h cs).1.maxConcurrent = h.maxConcurrent ∧
    (registerAll h cs).1.systemInfo = h.systemInfo := by
  induction cs with
  | nil => intro h; exact ⟨rfl, rfl⟩
  | cons c rest ih =>
    intro h
    unfold registerAll
    cases hr : Register h c with
    | mk h1 err =>
      have hcfg := Register_preserves_config h c
      rw [hr] at hcfg
      cases err with
      | none =>
        simp only []
        exact ⟨(ih h1).1.trans hcfg.1, (ih h1).2.trans hcfg.2.1⟩
      | some e =>
        simp only []
        exact ⟨hcfg.1, hcfg.2.1⟩

theorem applyOptions_systemInfo (opts : List HealthOption) : ∀ h h' : Health,
    applyOptions h opts = Except.ok h' → h.systemInfo = true → h'.systemInfo = true := by
  induction opts with
  | nil =>
    intro h h' he hs
    rw [show applyOptions h [] = Except.ok h from rfl] at he
    cases he
    exact hs
  | cons o rest ih =>
    intro h h' he hs
    unfold applyOptions at he
    cases hao : applyOption h o with
    | mk h1 err =>
      rw [hao] at he
      cases err with
      | none =>
        refine ih h1 h' he ?_
        cases o with
        | withChecks cs =>
          have := (registerAll_preserves_config cs h).2
          have h1eq : h1 = (registerAll h cs).1 := by
            rw [show applyOption h (HealthOption.withChecks cs) = registerAll h cs from rfl]
              at hao
            rw [hao]
          rw [h1eq, this, hs]
        | withComponent cc =>
          cases hao
          exact hs
        | withMaxConcurrent n =>
          cases hao
          exact hs
        | withSystemInfo =>
          cases hao
          rfl
      | some e => cases he

theorem applyOptions_maxConcurrent_pos (opts : List HealthOption) : ∀ h h' : Health,
    applyOptions h opts = Except.ok h' → 0 < h.maxConcurrent →
    allMaxConcurrentPos opts = true → 0 < h'.maxConcurrent := by
  induction opts with
  | nil =>
    intro h h' he hp _
    rw [show applyOptions h [] = Except.ok h from rfl] at he
    cases he
    exact hp
  | cons o rest ih =>
    intro h h' he hp hall
    unfold applyOptions at he
    cases hao : applyOption h o with
    | mk h1 err =>
      rw [hao] at he
      cases err with
      | none =>
        cases o with
        | withChecks cs =>
          refine ih h1 h' he ?_ (by simpa [allMaxConcurrentPos] using hall)
          have := (registerAll_preserves_config cs h).1
          have h1eq : h1 = (registerAll h cs).1 := by
            rw [show applyOption h (HealthOption.withChecks cs) = registerAll h cs from rfl]
              at hao
            rw [hao]
          rw [h1eq, this]
          exact hp
        | withComponent cc =>
          cases hao
          exact ih _ h' he hp (by simpa [allMaxConcurrentPos] using hall)
        | withMaxConcurrent n =>
          cases hao
          have hn : 0 < n ∧ allMaxConcurrentPos rest = true := by
            have := hall
            simp [allMaxConcurrentPos] at this
            exact this
          exact ih _ h' he hn.1 hn.2
        | withSystemInfo =>
          cases hao
          exact ih _ h' he hp (by simpa [allMaxConcurrentPos] using hall)
      | some e => cases he

/-- C6 counterexample: NewHealth accepts WithMaxConcurrent(0) without error
(WithMaxConcurrent performs no validation), so the constructed engine has
maxConcurrent = 0, violating the claimed invariant maxConcurrent > 0. -/
theorem newHealth_accepts_nonpositive_maxConcurrent :
    NewHealth 4 [HealthOption.withMaxConcurrent 0] =
      Except.ok { checks := []
                  maxConcurrent := 0
                  systemInfo := true
                  component := componentZero } ∧
    ¬ 0 < ({ checks := []
             maxConcurrent := 0
             systemInfo := true
             component := componentZero } : Health).maxConcurrent :=
  ⟨rfl, by decide⟩

/-- C6 amended: the engine built by NewHealth has maxConcurrent > 0 provided
the host CPU count is positive and every WithMaxConcurrent option among the
accepted options carries a positive argument; WithMaxConcurrent itself does
not validate, so a non-positive argument is stored as given. -/
theorem newHealth_maxConcurrent_pos (numCPU : Int) (opts : List HealthOption)
    (h : Health) (hcpu : 0 < numCPU) (hall : allMaxConcurrentPos opts = true)
    (hok : NewHealth numCPU opts = Except.ok h) :
    0 < h.maxConcurrent :=
  applyOptions_maxConcurrent_pos opts (initialHealth numCPU) h hok hcpu hall

theorem newHealth_maxConcurrent_pos_witness : 0 <
    ({ checks := []
       maxConcurrent := 1
       systemInfo := true
       component := componentZero } : Health).maxConcurrent :=
  newHealth_maxConcurrent_pos 4 [HealthOption.withMaxConcurrent 1] _
    (by decide) (by decide) rfl

/-- C9: the systemInfo flag is true in every engine NewHealth returns —
NewHealth initialises it to true, WithSystemInfo only re-asserts true, and
no option ever sets it to false — so every report of a check-run carries the
metrics snapshot rather than a nil System. -/
theorem systemInfo_never_disabled (numCPU : Int) (opts : List HealthOption)
    (h : Health) (hok : NewHealth numCPU opts = Except.ok h) :
    h.systemInfo = true ∧
    ∀ (outcomes : List (Check × ProbeOutcome)) (sys : System) (now : Int),
      (checkRun h outcomes sys now).system = some sys := by
  have hsi : h.systemInfo = true :=
    applyOptions_systemInfo opts (initialHealth numCPU) h hok rfl
  exact ⟨hsi, fun outcomes sys now => by simp [checkRun, hsi]⟩

theorem systemInfo_never_disabled_witness :
    (checkRun (initialHealth 4) [] sys0 0).system = some sys0 :=
  (systemInfo_never_disabled 4 [HealthOption.withSystemInfo] (initialHealth 4)
    rfl).2 [] sys0 0

theorem applyOptions_cons (h : Health) (o : HealthOption)
    (rest : List HealthOption) :
    applyOptions h (o :: rest) =
      match applyOption h o with
      | (h1, none) => applyOptions h1 rest
      | (_, some e) => Except.error e := rfl

theorem registerAll_cons (h : Health) (c : Check) (rest : List Check) :
    registerAll h (c :: rest) =
      match Register h c with
      | (h1, none) => registerAll h1 rest
      | (h1, some e) => (h1, some (wrapRegMsg c.name e)) := rfl

theorem applyOptions_append_ok (opts1 : List HealthOption) : ∀ (h h' : Health),
    applyOptions h opts1 = Except.ok h' →
    ∀ opts2, applyOptions h (opts1 ++ opts2) = applyOptions h' opts2 := by
  induction opts1 with
  | nil =>
    intro h h' he opts2
    rw [show applyOptions h [] = Except.ok h from rfl] at he
    cases he
    rfl
  | cons o rest ih =>
    intro h h' he opts2
    unfold applyOptions at he
    rw [List.cons_append, applyOptions_cons]
    cases hao : applyOption h o with
    | mk h1 err =>
      rw [hao] at he
      cases err with
      | none => exact ih h1 h' he opts2
      | some e => cases he

theorem registerAll_append_ok (cs1 : List Check) : ∀ (h hmid : Health),
    registerAll h cs1 = (hmid, none) →
    ∀ cs2, registerAll h (cs1 ++ cs2) = registerAll hmid cs2 := by
  induction cs1 with
  | nil =>
    intro h hmid he cs2
    have : h = hmid := congrArg Prod.fst he
    rw [List.nil_append, this]
  | cons c rest ih =>
    intro h hmid he cs2
    unfold registerAll at he
    rw [List.cons_append, registerAll_cons]
    cases hr : Register h c with
    | mk h1 err =>
      rw [hr] at he
      cases err with
      | none => exact ih h1 hmid he cs2
      | some e =>
        exact absurd (congrArg Prod.snd he) (by simp)

/-- C8: NewHealth applies options left to right and the first failing
option aborts construction with its error and no engine; in particular a
failed registration inside WithChecks (here: any registration error raised
at some check c after a successful prefix) surfaces as the wrapped
registration error of that very check. -/
theorem newHealth_first_error_short_circuits (numCPU : Int)
    (opts1 : List HealthOption) (o : HealthOption) (opts2 : List HealthOption)
    (h : Health) (e : String)
    (hpre : applyOptions (initialHealth numCPU) opts1 = Except.ok h)
    (herr : (applyOption h o).2 = some e) :
    NewHealth numCPU (opts1 ++ o :: opts2) = Except.error e ∧
    ∀ (h0 hmid : Health) (cs1 : List Check) (c : Check) (cs2 : List Check)
      (e0 : String),
      registerAll h0 cs1 = (hmid, none) → (Register hmid c).2 = some e0 →
      (applyOption h0 (HealthOption.withChecks (cs1 ++ c :: cs2))).2 =
        some (wrapRegMsg c.name e0) := by
  constructor
  · rw [NewHealth, applyOptions_append_ok opts1 (initialHealth numCPU) h hpre]
    unfold applyOptions
    cases hao : applyOption h o with
    | mk h1 err =>
      rw [hao] at herr
      simp only [] at herr
      rw [herr]
  · intro h0 hmid cs1 c cs2 e0 hra hre
    rw [show applyOption h0 (HealthOption.withChecks (cs1 ++ c :: cs2)) =
          registerAll h0 (cs1 ++ c :: cs2) from rfl]
    rw [registerAll_append_ok cs1 h0 hmid hra (c :: cs2)]
    unfold registerAll
    cases hr : Register hmid c with
    | mk h1 err =>
      rw [hr] at hre
      simp only [] at hre
      rw [hre]

/-- A component description, used in witnesses. -/
def componentW : Component := { name := "svc", version := "1.0" }

theorem newHealth_first_error_short_circuits_witness :
    NewHealth 4 [HealthOption.withComponent componentW,
                 HealthOption.withChecks [checkUnnamed],
                 HealthOption.withSystemInfo] =
      Except.error (wrapRegMsg "" emptyNameMsg) :=
  (newHealth_first_error_short_circuits 4 [HealthOption.withComponent componentW]
    (HealthOption.withChecks [checkUnnamed]) [HealthOption.withSystemInfo]
    { checks := []
      maxConcurrent := 4
      systemInfo := true
      component := componentW }
    (wrapRegMsg "" emptyNameMsg) rfl rfl).1

/-- Probe A of the spec's worked example: its operation succeeds. -/
def checkA : Check := { name := "A", timeout := 2 * timeSecond, skipOnErr := false }

/-- Probe B of the spec's worked example: fails with message boom,
skipOnErr false. -/
def checkBBoom : Check := { name := "B", timeout := 2 * timeSecond, skipOnErr := false }

/-- Probe C of the spec's worked example: its operation exceeds its
timeout. -/
def checkC : Check := { name := "C", timeout := timeSecond, skipOnErr := false }

/-- The engine of the worked example, as NewHealth builds it from
WithChecks [A, B, C]. -/
def healthABC : Health :=
  { checks := [("A", checkA), ("B", checkBBoom), ("C", checkC)]
    maxConcurrent := 4
    systemInfo := true
    component := componentZero }

/-- The three outcomes of the worked example, in one particular completion
order. -/
def outcomesABC : List (Check × ProbeOutcome) :=
  [(checkA, ProbeOutcome.success),
   (checkBBoom, ProbeOutcome.failure "boom"),
   (checkC, ProbeOutcome.timeout)]

/-- C4: for the run with probes A (succeeds), B (fails with boom,
skipOnErr false) and C (times out), in any completion order, the report
status is Unavailable and the failures map holds exactly B to boom and C to
Timeout; the succeeding probe A adds no failures entry and leaves the
accumulator untouched. -/
theorem check_example_boom_timeout (l : List (Check × ProbeOutcome))
    (hp : l.Perm outcomesABC) :
    NewHealth 4 [HealthOption.withChecks [checkA, checkBBoom, checkC]] =
      Except.ok healthABC ∧
    (checkRun healthABC l sys0 0).status = Status.unavailable ∧
    (checkRun healthABC l sys0 0).failures.Perm [("B", "boom"), ("C", "Timeout")] ∧
    ∀ acc : Status × List (String × String),
      processOutcome acc (checkA, ProbeOutcome.success) = acc := by
  refine ⟨rfl, ?_, ?_, fun acc => rfl⟩
  · have hst : (checkRun healthABC l sys0 0).status = (runOutcomes l).1 := rfl
    rw [hst, runOutcomes_status, foldStatus_char]
    have hmem : false ∈ l.filterMap failFlag :=
      (hp.filterMap failFlag).mem_iff.mpr (by decide)
    simp [hmem]
  · have hfs : (checkRun healthABC l sys0 0).failures = (runOutcomes l).2 := rfl
    rw [hfs, runOutcomes_failures]
    have h2 : outcomesABC.filterMap failEntry = [("B", "boom"), ("C", "Timeout")] := rfl
    exact h2 ▸ hp.filterMap failEntry

theorem check_example_boom_timeout_witness :
    (checkRun healthABC outcomesABC sys0 0).status = Status.unavailable ∧
    (checkRun healthABC outcomesABC sys0 0).failures.Perm
      [("B", "boom"), ("C", "Timeout")] ∧
    processOutcome (Status.ok, []) (checkA, ProbeOutcome.success) = (Status.ok, []) :=
  have h := check_example_boom_timeout outcomesABC (List.Perm.refl _)
  ⟨h.2.1, h.2.2.1, h.2.2.2 (Status.ok, [])⟩

/-- C10 counterexample: in `(*Health).Check` the probe execution happens
while the registry mutex is held — the lock is not released after the
initial read of the probe set, refuting the claim that the lock is held
only during that read. -/
theorem check_runs_probes_under_lock :
    MuAction.runProbes ∈ heldActions checkTrace := by decide

/-- C10 amended: the registry mutex is held during registration (around the
duplicate lookup and the insert), but in a check-run it is held for the
whole run — the read of the probe set, the probe execution and the report
construction all occur between the lock at entry and the deferred unlock at
return — so check-runs serialize with each other and a running check blocks
registration until the run completes. -/
theorem mutex_held_for_whole_run :
    heldActions checkTrace =
      [MuAction.readChecks, MuAction.runProbes, MuAction.buildReport] ∧
    heldActions registerTrace = [MuAction.readChecks, MuAction.writeChecks] ∧
    checkTrace.head? = some MuAction.lock ∧
    checkTrace.getLast? = some MuAction.unlock := by decide
